import Mathlib

/-!
Verification of the agentstat Agent-Session Discovery & Status-Inference
Engine.  The Go source is shallowly embedded: pure status-inference
algorithms become Lean functions over explicit representations of the
artifacts they scan (JSON-lines transcripts, rollout files, thread files,
session files), and OS / network effects (process tables, file reads, HTTP
responses) are passed in as explicit environment values, with `Option`
encoding fallible reads.
-/

namespace Agentstat

/-! ## Shared model (internal/model) -/

/-- Status constant from the model package. -/
def StatusBusy : String := "busy"

/-- Status constant from the model package. -/
def StatusIdle : String := "idle"

/-- Status constant from the model package. -/
def StatusRetry : String := "retry"

/-- Status constant from the model package. -/
def StatusUnknown : String := "unknown"

/-- AgentSession: the shared output record of every discoverer.
Fields default to the Go zero values ("" for strings), matching Go
composite literals that omit fields. -/
structure AgentSession where
  agent : String
  status : String
  sessionID : String := ""
  title : String := ""
  directory : String := ""
  pid : Int
  deriving Repr, DecidableEq

/-! ## Claude transcript scanning (scanClaudeJSONL)

A transcript is a list of lines.  Relative to the scanner, a line is
either blank (TrimSpace == ""), malformed (non-blank but json.Unmarshal
fails), or a parsed entry carrying the four fields the Go struct
claudeJSONLEntry extracts (absent JSON fields unmarshal to ""). -/

/-- Fields extracted from one Claude JSONL line (claudeJSONLEntry). -/
structure claudeJSONLEntry where
  type : String
  subtype : String
  slug : String
  cwd : String
  deriving Repr, DecidableEq

/-- One line of a Claude transcript as the scanner sees it. -/
inductive ClaudeLine where
  | blank
  | malformed
  | entry (e : claudeJSONLEntry)
  deriving Repr, DecidableEq

/-- Scanner state of scanClaudeJSONL: the running line counter, the line
positions of the most recent turn_duration / assistant markers (-1 when
not yet seen, as in the Go source), and the accumulated slug and cwd. -/
structure ClaudeScanState where
  lineNum : Nat
  lastTurnDuration : Int
  lastAssistant : Int
  slug : String
  cwd : String
  deriving Repr, DecidableEq

/-- One iteration of the scanClaudeJSONL loop body. Blank and malformed
lines only advance the line counter; parsed entries additionally update
slug/cwd (later non-empty values win) and the marker positions. -/
def scanStep (s : ClaudeScanState) (l : ClaudeLine) : ClaudeScanState :=
  match l with
  | ClaudeLine.blank => { s with lineNum := s.lineNum + 1 }
  | ClaudeLine.malformed => { s with lineNum := s.lineNum + 1 }
  | ClaudeLine.entry e =>
      { lineNum := s.lineNum + 1
        lastTurnDuration :=
          if e.type = "system" ∧ e.subtype = "turn_duration" then
            (s.lineNum : Int)
          else s.lastTurnDuration
        lastAssistant :=
          if e.type = "assistant" then (s.lineNum : Int) else s.lastAssistant
        slug := if e.slug ≠ "" then e.slug else s.slug
        cwd := if e.cwd ≠ "" then e.cwd else s.cwd }

/-- Result triple of scanClaudeJSONL (status, slug, cwd). -/
structure ClaudeScanResult where
  status : String
  slug : String
  cwd : String
  deriving Repr, DecidableEq

/-- scanClaudeJSONL: forward scan of the transcript tracking the last
line positions of turn_duration and assistant entries, then the
deterministic status comparison from the Go source. -/
def scanClaudeJSONL (lines : List ClaudeLine) : ClaudeScanResult :=
  let fin := lines.foldl scanStep ⟨0, -1, -1, "", ""⟩
  let status :=
    if fin.lastTurnDuration > fin.lastAssistant then StatusIdle
    else if fin.lastAssistant > fin.lastTurnDuration then StatusBusy
    else StatusIdle
  ⟨status, fin.slug, fin.cwd⟩

/-- Does this line parse as a system entry with subtype turn_duration? -/
def isTurnDurationLine : ClaudeLine → Bool
  | ClaudeLine.entry e => e.type = "system" ∧ e.subtype = "turn_duration"
  | _ => false

/-- Does this line parse as an assistant-role entry? -/
def isAssistantLine : ClaudeLine → Bool
  | ClaudeLine.entry e => e.type = "assistant"
  | _ => false

/-- Declarative "line position of the last element satisfying p":
none when no element satisfies p, otherwise the greatest such index. -/
def lastMarkerPos (p : α → Bool) : List α → Option Nat
  | [] => none
  | x :: xs =>
      match lastMarkerPos p xs with
      | some j => some (j + 1)
      | none => if p x then some 0 else none

/-- Encode an optional position as the Go convention: -1 when absent. -/
def posToInt : Option Nat → Int
  | none => -1
  | some n => (n : Int)

/-! ## Codex rollout files (readRolloutStatus)

A rollout file is a list of lines.  Relative to readRolloutStatus, a
line is blank (TrimSpace == ""), malformed (non-blank but json.Unmarshal
fails), or a parsed record whose nested payload.type field is the given
string (absent fields unmarshal to "").  The whole file content is an
Option: none models the os.Open failure branch. -/

/-- One line of a Codex rollout file as readRolloutStatus sees it. -/
inductive RolloutLine where
  | blank
  | malformed
  | record (ptype : String)
  deriving Repr, DecidableEq

/-- Is this rollout line blank (strings.TrimSpace(line) == "")? -/
def rolloutBlank : RolloutLine → Bool
  | RolloutLine.blank => true
  | _ => false

/-- Declarative "last non-blank line" of a rollout file. -/
def lastNonBlank : List RolloutLine → Option RolloutLine
  | [] => none
  | l :: ls =>
      match lastNonBlank ls with
      | some x => some x
      | none => if rolloutBlank l then none else some l

/-- readRolloutStatus: scan the whole file keeping the last non-blank
line (the Go loop `if TrimSpace(line) != "" { lastLine = line }`), then
decide: no such line or unparsable line gives unknown; payload.type
"task_complete" gives idle; any other parsed record gives busy.  A
`none` content models the os.Open failure branch, which returns
unknown. -/
def readRolloutStatus : Option (List RolloutLine) → String
  | none => StatusUnknown
  | some lines =>
      match lines.foldl
          (fun acc l => if rolloutBlank l then acc else some l) none with
      | none => StatusUnknown
      | some RolloutLine.blank => StatusUnknown
      | some RolloutLine.malformed => StatusUnknown
      | some (RolloutLine.record t) =>
          if t = "task_complete" then StatusIdle else StatusBusy

/-! ## Amp threads (ampStatus, ampStatusFromThread, probeAmpPID) -/

/-- ampState: the execution state of an Amp message. -/
structure ampState where
  type : String
  stopReason : String
  deriving Repr, DecidableEq

/-- ampMessage: one message of an Amp thread. -/
structure ampMessage where
  role : String
  state : ampState
  deriving Repr, DecidableEq

/-- ampTree: one workspace tree entry of an Amp thread. -/
structure ampTree where
  displayName : String
  uri : String
  deriving Repr, DecidableEq

/-- ampInitial: the initial workspace trees of an Amp thread. -/
structure ampInitial where
  trees : List ampTree
  deriving Repr, DecidableEq

/-- ampEnv: the env block of an Amp thread file. -/
structure ampEnv where
  initial : ampInitial
  deriving Repr, DecidableEq

/-- ampThread: the top-level structure of an Amp thread file. -/
structure ampThread where
  env : ampEnv
  messages : List ampMessage
  deriving Repr, DecidableEq

/-- ampThreadFile: a parsed Amp thread file with its path and mtime
(modelled as an integer timestamp; only its ordering is used). -/
structure ampThreadFile where
  path : String
  modTime : Int
  data : ampThread
  deriving Repr, DecidableEq

/-- ampStatus: the Go switch mapping a message state to a status. -/
def ampStatus (state : ampState) : String :=
  if state.type = "streaming" then StatusBusy
  else if state.type = "complete" then
    if state.stopReason = "tool_use" then StatusBusy else StatusIdle
  else if state.type = "cancelled" then StatusIdle
  else if state.type = "error" then StatusIdle
  else StatusIdle

/-- The reverse walk of ampStatusFromThread: the Go loop runs the index
from the end of the message slice towards the front and returns at the
first assistant-role message, so it is a forward scan of the reversed
list. -/
def ampStatusScan : List ampMessage → String
  | [] => StatusIdle
  | m :: rest =>
      if m.role = "assistant" then ampStatus m.state else ampStatusScan rest

/-- ampStatusFromThread: status of the last assistant message, idle when
there is none. -/
def ampStatusFromThread (t : ampThread) : String :=
  ampStatusScan t.messages.reverse

/-- Declarative "last message with role assistant" of a message list. -/
def lastAssistantMsg : List ampMessage → Option ampMessage
  | [] => none
  | m :: ms =>
      match lastAssistantMsg ms with
      | some x => some x
      | none => if m.role = "assistant" then some m else none

/-! ## Generic helpers: comparison sort, string and path utilities

Go's sort.Ints / sort.Slice are comparison sorts whose algorithm is
unspecified; they are modelled by an insertion sort parameterised by the
ordering the Go call sites pass. -/

/-- Insert x into l before the first element y with le x y. -/
def insertLe (le : α → α → Bool) (x : α) : List α → List α
  | [] => [x]
  | y :: ys => if le x y then x :: y :: ys else y :: insertLe le x ys

/-- Comparison sort modelling Go's sort.Ints / sort.Slice. -/
def sortLe (le : α → α → Bool) (xs : List α) : List α :=
  xs.foldr (insertLe le) []

/-- strings.HasPrefix, via character lists so that concrete instances
reduce in the kernel. -/
def strHasPrefix (s pre : String) : Bool :=
  pre.toList.isPrefixOf s.toList

/-- strings.HasSuffix, via character lists so that concrete instances
reduce in the kernel. -/
def strHasSuffix (s suf : String) : Bool :=
  suf.toList.isSuffixOf s.toList

/-- strings.TrimSuffix: remove the suffix when present. -/
def strTrimSuffix (s suf : String) : String :=
  if strHasSuffix s suf then s.dropRight suf.length else s

/-- filepath.Base: the last element of a path — "." for the empty path,
"/" for an all-separator path, otherwise the component after the last
separator once trailing separators are removed. -/
def filepathBase (p : String) : String :=
  if p = "" then "."
  else
    let cs := (p.toList.reverse.dropWhile (fun c => c = '/')).reverse
    if cs = [] then "/"
    else String.mk ((cs.reverse.takeWhile (fun c => c ≠ '/')).reverse)

/-- uriToPath: converts a file:// URI to a local path — the URI path
component, i.e. everything from the first slash after the scheme and
authority. Non-file URIs give "". (url.Parse percent-decoding is not
modelled; none of the verified properties depend on it.) -/
def uriToPath (uri : String) : String :=
  if strHasPrefix uri "file://" then
    String.mk ((uri.drop 7).toList.dropWhile (fun c => c ≠ '/'))
  else ""

/-! ## Amp discoverer (probeAmpPID, matchThreadByCwd, DiscoverAmp) -/

/-- Does one workspace tree of this thread cover the cwd? Inner loop of
matchThreadByCwd: skip trees with empty resolved paths; match when the
cwd equals the tree path or lies beneath it. -/
def ampTreeMatches (cwd : String) (tree : ampTree) : Bool :=
  let treePath := uriToPath tree.uri
  treePath ≠ "" && (cwd = treePath || strHasPrefix cwd (treePath ++ "/"))

/-- matchThreadByCwd: sort thread files by mtime descending and return
the first whose workspace trees cover the cwd, so the most recently
modified match wins. -/
def matchThreadByCwd (cwd : String) (threads : List ampThreadFile) :
    Option ampThreadFile :=
  let sorted := sortLe (fun a b => b.modTime ≤ a.modTime) threads
  sorted.find? (fun t => t.data.env.initial.trees.any (ampTreeMatches cwd))

/-- Environment of the Amp discoverer: candidate PIDs found by argument
matching, the parsed thread files, and each process's working directory
as the platform layer reports it. -/
structure AmpWorld where
  pids : List Int
  threads : List ampThreadFile
  cwd : Int → String

/-- probeAmpPID: drop the PID entirely when its working directory is
unreadable; report unknown when readable but no thread matches;
otherwise derive status, session id and title from the matched thread. -/
def probeAmpPID (w : AmpWorld) (pid : Int) : Option AgentSession :=
  let cwd := w.cwd pid
  if cwd = "" ∨ cwd = "-" then none
  else
    match matchThreadByCwd cwd w.threads with
    | none =>
        some { agent := "amp", status := StatusUnknown,
               directory := cwd, pid := pid }
    | some thread =>
        some { agent := "amp"
               status := ampStatusFromThread thread.data
               sessionID := strTrimSuffix (filepathBase thread.path) ".json"
               title :=
                 match thread.data.env.initial.trees with
                 | [] => "-"
                 | tr :: _ => tr.displayName
               directory := cwd
               pid := pid }

/-- ConcurrentProbe: the fan-out runner as used by the discoverers:
every item is probed and the non-nil results are collected (the
reference schedule; order-independence is proved separately). -/
def ConcurrentProbe (items : List α) (probe : α → Option AgentSession) :
    List AgentSession :=
  items.filterMap probe

/-- DiscoverAmp: unknown records for every PID when no thread files
exist at all, otherwise one probe per PID. -/
def DiscoverAmp (w : AmpWorld) : List AgentSession :=
  if w.pids = [] then []
  else if w.threads = [] then
    ConcurrentProbe w.pids (fun pid =>
      some { agent := "amp", status := StatusUnknown,
             directory := w.cwd pid, pid := pid })
  else ConcurrentProbe w.pids (probeAmpPID w)

/-! ## Gemini discoverer (DiscoverGemini, filterGeminiParents) -/

/-- Go string comparison s < t, modelled as lexicographic comparison of
the character lists (identical on the ASCII timestamps the Gemini
session files carry). -/
def strLtB (s t : String) : Bool := decide (s.toList < t.toList)

/-- geminiMessage: one message of a Gemini session. -/
structure geminiMessage where
  type : String
  timestamp : String
  deriving Repr, DecidableEq

/-- geminiSession: the top-level structure of a session-*.json file. -/
structure geminiSession where
  sessionID : String
  startTime : String
  lastUpdated : String
  messages : List geminiMessage
  deriving Repr, DecidableEq

/-- geminiSessionFile: a parsed Gemini session file with its path, mtime
and project directory. -/
structure geminiSessionFile where
  path : String
  modTime : Int
  projectDir : String
  data : geminiSession
  deriving Repr, DecidableEq

/-- geminiStatusFromSession: busy when the last message is user-typed,
idle otherwise (also when there are no messages yet). -/
def geminiStatusFromSession (session : geminiSession) : String :=
  match session.messages.getLast? with
  | none => StatusIdle
  | some lastMsg =>
      if lastMsg.type = "user" then StatusBusy else StatusIdle

/-- filterGeminiParents: keep a PID only when its parent PID is not
itself in the candidate set. -/
def filterGeminiParents (ppid : Int → Int) (pids : List Int) : List Int :=
  pids.filter (fun pid => !(pids.contains (ppid pid)))

/-- matchGeminiProject: first try the .project_root file of the project
directory (projectRootOf returns its trimmed content, none on a read
error); fall back to comparing directory basenames. -/
def matchGeminiProject (projectRootOf : String → Option String)
    (cwd projectDir : String) : Bool :=
  let fallback := filepathBase projectDir = filepathBase cwd
  match projectRootOf projectDir with
  | some root =>
      if root ≠ "" ∧ (cwd = root ∨ strHasPrefix cwd (root ++ "/")) then
        true
      else fallback
  | none => fallback

/-- matchAllGeminiSessionsByCwd: all session files whose project
directory matches the cwd. -/
def matchAllGeminiSessionsByCwd (projectRootOf : String → Option String)
    (cwd : String) (sessions : List geminiSessionFile) :
    List geminiSessionFile :=
  sessions.filter (fun s => matchGeminiProject projectRootOf cwd s.projectDir)

/-- The positional pairing loop of DiscoverGemini: the i-th sorted PID
takes the i-th sorted session, and the PIDs beyond the session count are
reported with status unknown. -/
def pairLoop (matching : List geminiSessionFile) (cwd : String) :
    Nat → List Int → List AgentSession
  | _, [] => []
  | i, pid :: rest =>
      (if h : i < matching.length then
        let sess := matching.get ⟨i, h⟩
        { agent := "gemini", status := geminiStatusFromSession sess.data,
          sessionID := sess.data.sessionID, directory := cwd, pid := pid }
      else
        { agent := "gemini", status := StatusUnknown,
          directory := cwd, pid := pid })
      :: pairLoop matching cwd (i + 1) rest

/-- One cwd group of DiscoverGemini: sort the PIDs ascending and the
matched sessions by start time ascending, then pair positionally. -/
def pairGeminiGroup (cwd : String) (pidsInCwd : List Int)
    (matching : List geminiSessionFile) : List AgentSession :=
  let sortedPids := sortLe (fun a b => decide (a ≤ b)) pidsInCwd
  let sortedSessions :=
    sortLe (fun a b => strLtB a.data.startTime b.data.startTime) matching
  pairLoop sortedSessions cwd 0 sortedPids

/-- First-appearance deduplication of the group keys, the canonical
iteration order for the Go cwdToPIDs map (Go map iteration order is
unspecified; every claim proved here is order-independent). -/
def dedupFirst : List String → List String
  | [] => []
  | c :: cs => c :: (dedupFirst cs).filter (fun x => x ≠ c)

/-- Group the (pid, cwd) entries by cwd, preserving entry order inside
each group. -/
def groupPidsByCwd (entries : List (Int × String)) :
    List (String × List Int) :=
  (dedupFirst (entries.map Prod.snd)).map
    (fun c => (c, (entries.filter (fun e => e.2 = c)).map Prod.fst))

/-- Environment of the Gemini discoverer: candidate PIDs found by
argument matching, the parent-PID and cwd views of the platform layer,
the parsed session files and the .project_root lookup. -/
structure GeminiWorld where
  pids : List Int
  ppid : Int → Int
  cwd : Int → String
  sessions : List geminiSessionFile
  projectRoot : String → Option String

/-- DiscoverGemini: filter child PIDs, report unknown for every parent
when no session files exist, otherwise group parents by cwd and pair
each group with its matching sessions. -/
def DiscoverGemini (w : GeminiWorld) : List AgentSession :=
  if w.pids = [] then []
  else
    let parentPIDs := filterGeminiParents w.ppid w.pids
    if w.sessions = [] then
      parentPIDs.map (fun pid =>
        { agent := "gemini", status := StatusUnknown,
          directory := w.cwd pid, pid := pid })
    else
      let entries := parentPIDs.filterMap (fun pid =>
        let c := w.cwd pid
        if c = "" ∨ c = "-" then none else some (pid, c))
      (groupPidsByCwd entries).flatMap (fun g =>
        pairGeminiGroup g.1 g.2
          (matchAllGeminiSessionsByCwd w.projectRoot g.1 w.sessions))

/-! ## Platform introspection (linuxPlatform)

Every OS effect is an explicit input: a None models the corresponding
system-call failure (glob / ReadDir / Readlink / ReadFile / command
execution).  The operations translate the Go bodies over these inputs. -/

/-- A ListenEntry as parsed from one line of the listening-socket
snapshot. -/
structure ListenEntry where
  port : Int
  pid : Int
  cmd : String
  deriving Repr, DecidableEq

/-- One /proc/{pid}/cmdline observation: the PID from the entry path and
the null-split argument list, none when the read failed. -/
structure ProcEntry where
  pid : Int
  cmdline : Option (List String)
  deriving Repr, DecidableEq

/-- ReadProcessCwd: the /proc/{pid}/cwd symlink target, "-" when the
readlink fails. -/
def ReadProcessCwd : Option String → String
  | none => "-"
  | some link => link

/-- ListOpenFiles: resolve each /proc/{pid}/fd entry, silently skipping
unreadable links; an unreadable fd directory gives the empty list. -/
def ListOpenFiles : Option (List (Option String)) → List String
  | none => []
  | some entries => entries.filterMap id

/-- FindPIDsByName: over the globbed /proc entries, keep the PIDs whose
argv[0] matches the pattern; a glob failure gives the empty list, an
unreadable cmdline skips that entry.  The regular expression is
abstracted as the predicate it denotes on argv[0]. -/
def FindPIDsByName (re : String → Bool) :
    Option (List ProcEntry) → List Int
  | none => []
  | some entries =>
      entries.filterMap (fun e =>
        match e.cmdline with
        | none => none
        | some [] => none
        | some (arg0 :: _) => if re arg0 then some e.pid else none)

/-- FindListenTCP: over the ss output lines (none per line when the
socket regex does not match), keep entries with positive port and PID; a
command-execution failure gives the empty list. -/
def FindListenTCP : Option (List (Option ListenEntry)) → List ListenEntry
  | none => []
  | some parsedLines =>
      parsedLines.filterMap (fun m =>
        match m with
        | none => none
        | some e => if e.port > 0 ∧ e.pid > 0 then some e else none)

/-! ## Concurrent probe runner (ConcurrentProbe)

Concurrency is modelled by quantifying over the completion order of the
per-item tasks: the runner appends each non-nil probe result under the
mutex as its task finishes, and the WaitGroup join means every task's
result is consumed before the function returns.  A run is therefore a
fold over an arbitrary permutation of the item list. -/

/-- One run of ConcurrentProbe whose tasks finish in the given
completion order: results are appended as tasks complete, nil results
dropped. -/
def ConcurrentProbeRun (completionOrder : List α)
    (probe : α → Option AgentSession) : List AgentSession :=
  completionOrder.foldl
    (fun results it =>
      match probe it with
      | some session => results ++ [session]
      | none => results) []

/-! ## End-to-end discoverers (DiscoverCodex, DiscoverClaude,
DiscoverOpenCode) and the session-record invariants -/

/-- The status enumeration of the session model. -/
def statusOK (s : String) : Prop :=
  s = StatusBusy ∨ s = StatusIdle ∨ s = StatusRetry ∨ s = StatusUnknown

/-- ASCII upper-to-lower folding of one character, as strings.EqualFold
behaves on the ASCII command names compared here. -/
def charFold (c : Char) : Char :=
  if 65 ≤ c.toNat ∧ c.toNat ≤ 90 then Char.ofNat (c.toNat + 32) else c

/-- strings.EqualFold restricted to ASCII folding (the Unicode simple
folding of the Go function agrees with it on the command names the
OpenCode discoverer compares). -/
def strEqualFold (s t : String) : Bool :=
  s.toList.map charFold == t.toList.map charFold

/-- One entry from the GET /session/status response. -/
structure sessionStatusEntry where
  type : String
  deriving Repr, DecidableEq

/-- One session from the GET /session response. -/
structure sessionListEntry where
  id : String
  title : String
  directory : String
  updated : Int
  deriving Repr, DecidableEq

/-- A discovered OpenCode TUI instance. -/
structure openCodeInstance where
  port : Int
  pid : Int
  deriving Repr, DecidableEq

/-- The loop of findOpenCodeInstances: keep listening sockets whose
command is opencode (case-folded), deduplicating by PID. -/
def findOCInstancesLoop : List ListenEntry → List Int → List openCodeInstance
  | [], _ => []
  | e :: rest, seen =>
      if strEqualFold e.cmd "opencode" && !(seen.contains e.pid) then
        ⟨e.port, e.pid⟩ :: findOCInstancesLoop rest (e.pid :: seen)
      else findOCInstancesLoop rest seen

/-- findOpenCodeInstances over the socket snapshot. -/
def findOpenCodeInstances (entries : List ListenEntry) :
    List openCodeInstance :=
  findOCInstancesLoop entries []

/-- Environment of the OpenCode discoverer: the raw socket snapshot and,
per local port, the two HTTP responses.  A failed or unparsable
status-map request is the empty list (Go iterates a nil map zero
times); a failed session-list request is none. -/
structure OpenCodeWorld where
  listenRaw : Option (List (Option ListenEntry))
  statusMap : Int → List (String × sessionStatusEntry)
  sessionList : Int → Option (List sessionListEntry)

/-- queryOpenCodeInstance: report the first status-map entry verbatim,
enriched from the session list when that request succeeds and contains
the id; report idle with no session metadata when the status map is
empty. -/
def queryOpenCodeInstance (w : OpenCodeWorld) (inst : openCodeInstance) :
    Option AgentSession :=
  match w.statusMap inst.port with
  | [] => some { agent := "opencode", status := StatusIdle, pid := inst.pid }
  | (id, entry) :: _ =>
      let base : AgentSession :=
        { agent := "opencode", status := entry.type,
          sessionID := id, pid := inst.pid }
      match w.sessionList inst.port with
      | none => some base
      | some sessions =>
          match sessions.find? (fun s => s.id = id) with
          | none => some base
          | some s =>
              some { base with title := s.title, directory := s.directory }

/-- DiscoverOpenCode: one probe per deduplicated listening instance. -/
def DiscoverOpenCode (w : OpenCodeWorld) : List AgentSession :=
  let instances := findOpenCodeInstances (FindListenTCP w.listenRaw)
  if instances = [] then []
  else ConcurrentProbe instances (queryOpenCodeInstance w)

/-- codexThreadInfo: the row fetched from the Codex SQLite database. -/
structure codexThreadInfo where
  title : String
  rolloutPath : String
  cwd : String
  deriving Repr, DecidableEq

/-- Environment of the Codex discoverer: candidate PIDs, each process's
open files, the rollout-filename pattern (rolloutMatch abstracts the
fixed UUID-extracting regular expression: the captured thread id, none
when the path does not match), the rollout file contents, the live cwd
and the database lookup. -/
structure CodexWorld where
  pids : List Int
  openFiles : Int → List String
  rolloutMatch : String → Option String
  rolloutContent : String → Option (List RolloutLine)
  cwd : Int → String
  db : String → Option codexThreadInfo

/-- findRolloutFile: the first open file matching the rollout pattern,
with its extracted thread id; ("", "") when none matches. -/
def findRolloutFile (w : CodexWorld) (pid : Int) : String × String :=
  match (w.openFiles pid).findSome?
      (fun f => (w.rolloutMatch f).map (fun tid => (f, tid))) with
  | some p => p
  | none => ("", "")

/-- probeCodexPID: no session without an open rollout file; otherwise
status from the rollout tail, title "-" unless the database has the
thread, and the database cwd overriding the live cwd when non-empty. -/
def probeCodexPID (w : CodexWorld) (pid : Int) : Option AgentSession :=
  let rp := findRolloutFile w pid
  if rp.1 = "" then none
  else
    let status := readRolloutStatus (w.rolloutContent rp.1)
    match w.db rp.2 with
    | some info =>
        some { agent := "codex", status := status, sessionID := rp.2,
               title := info.title,
               directory := if info.cwd ≠ "" then info.cwd else w.cwd pid,
               pid := pid }
    | none =>
        some { agent := "codex", status := status, sessionID := rp.2,
               title := "-", directory := w.cwd pid, pid := pid }

/-- DiscoverCodex: one probe per candidate PID. -/
def DiscoverCodex (w : CodexWorld) : List AgentSession :=
  if w.pids = [] then []
  else ConcurrentProbe w.pids (probeCodexPID w)

/-- Environment of the Claude discoverer: candidate PIDs, the PID to
session-id map built from the debug logs, the session-id to transcript
path resolution (glob over the project directories), the transcript
contents (none models an open/stat/seek failure) and the live cwd. -/
structure ClaudeWorld where
  pids : List Int
  pidMap : Int → Option String
  resolve : String → Option String
  content : String → Option (List ClaudeLine)
  cwd : Int → String

/-- readClaudeStatus: unknown with empty slug and cwd when the
transcript cannot be opened, otherwise the scan result. -/
def readClaudeStatus : Option (List ClaudeLine) → ClaudeScanResult
  | none => ⟨StatusUnknown, "", ""⟩
  | some lines => scanClaudeJSONL lines

/-- probeClaudePID: nothing without a mapped non-empty session id or a
resolvable transcript; otherwise status/slug/cwd from the transcript,
title defaulting to "-" and directory falling back to the live cwd. -/
def probeClaudePID (w : ClaudeWorld) (pid : Int) : Option AgentSession :=
  match w.pidMap pid with
  | none => none
  | some sessionID =>
      if sessionID = "" then none
      else
        match w.resolve sessionID with
        | none => none
        | some path =>
            let r := readClaudeStatus (w.content path)
            some { agent := "claude", status := r.status,
                   sessionID := sessionID,
                   title := if r.slug = "" then "-" else r.slug,
                   directory := if r.cwd = "" then w.cwd pid else r.cwd,
                   pid := pid }

/-- DiscoverClaude: one probe per candidate PID. -/
def DiscoverClaude (w : ClaudeWorld) : List AgentSession :=
  if w.pids = [] then []
  else ConcurrentProbe w.pids (probeClaudePID w)

/-! ## Theorems -/

theorem scanStep_lineNum (s : ClaudeScanState) (l : ClaudeLine) :
    (scanStep s l).lineNum = s.lineNum + 1 := by
  cases l <;> rfl

theorem foldl_scanStep_lastTurnDuration (lines : List ClaudeLine) :
    ∀ s : ClaudeScanState,
      (lines.foldl scanStep s).lastTurnDuration =
        match lastMarkerPos isTurnDurationLine lines with
        | some j => (s.lineNum : Int) + (j : Int)
        | none => s.lastTurnDuration := by
  induction lines with
  | nil => intro s; rfl
  | cons l ls ih =>
      intro s
      have hnum : (scanStep s l).lineNum = s.lineNum + 1 := scanStep_lineNum s l
      show ((l :: ls).foldl scanStep s).lastTurnDuration = _
      rw [List.foldl_cons]
      rw [ih (scanStep s l)]
      cases hls : lastMarkerPos isTurnDurationLine ls with
      | some j =>
          simp only [lastMarkerPos, hls, hnum]
          push_cast
          ring
      | none =>
          simp only [lastMarkerPos, hls]
          by_cases hl : isTurnDurationLine l = true
          · simp only [hl, if_pos rfl]
            cases l with
            | blank => simp [isTurnDurationLine] at hl
            | malformed => simp [isTurnDurationLine] at hl
            | entry e =>
                simp only [isTurnDurationLine, decide_eq_true_eq] at hl
                simp [scanStep, hl]
          · simp only [hl]
            rw [if_neg (by simp at hl; simp [hl])]
            cases l with
            | blank => rfl
            | malformed => rfl
            | entry e =>
                simp only [isTurnDurationLine, decide_eq_true_eq] at hl
                simp [scanStep, hl]

theorem foldl_scanStep_lastAssistant (lines : List ClaudeLine) :
    ∀ s : ClaudeScanState,
      (lines.foldl scanStep s).lastAssistant =
        match lastMarkerPos isAssistantLine lines with
        | some j => (s.lineNum : Int) + (j : Int)
        | none => s.lastAssistant := by
  induction lines with
  | nil => intro s; rfl
  | cons l ls ih =>
      intro s
      have hnum : (scanStep s l).lineNum = s.lineNum + 1 := scanStep_lineNum s l
      show ((l :: ls).foldl scanStep s).lastAssistant = _
      rw [List.foldl_cons]
      rw [ih (scanStep s l)]
      cases hls : lastMarkerPos isAssistantLine ls with
      | some j =>
          simp only [lastMarkerPos, hls, hnum]
          push_cast
          ring
      | none =>
          simp only [lastMarkerPos, hls]
          by_cases hl : isAssistantLine l = true
          · simp only [hl, if_pos rfl]
            cases l with
            | blank => simp [isAssistantLine] at hl
            | malformed => simp [isAssistantLine] at hl
            | entry e =>
                simp only [isAssistantLine, decide_eq_true_eq] at hl
                simp [scanStep, hl]
          · simp only [hl]
            rw [if_neg (by simp at hl; simp [hl])]
            cases l with
            | blank => rfl
            | malformed => rfl
            | entry e =>
                simp only [isAssistantLine, decide_eq_true_eq] at hl
                simp [scanStep, hl]

/-- The final marker fields of the scan equal the declarative last
positions under the Go -1 convention. -/
theorem scan_markers_eq (lines : List ClaudeLine) :
    (lines.foldl scanStep ⟨0, -1, -1, "", ""⟩).lastTurnDuration =
        posToInt (lastMarkerPos isTurnDurationLine lines) ∧
      (lines.foldl scanStep ⟨0, -1, -1, "", ""⟩).lastAssistant =
        posToInt (lastMarkerPos isAssistantLine lines) := by
  constructor
  · rw [foldl_scanStep_lastTurnDuration lines ⟨0, -1, -1, "", ""⟩]
    cases lastMarkerPos isTurnDurationLine lines <;> simp [posToInt]
  · rw [foldl_scanStep_lastAssistant lines ⟨0, -1, -1, "", ""⟩]
    cases lastMarkerPos isAssistantLine lines <;> simp [posToInt]

/-- Claim C1: Claude status inference — scanning tracks the line position
of the last system/turn_duration entry and of the last assistant entry;
strictly greater turn_duration position gives idle, strictly greater
assistant position gives busy, and a transcript in which neither marker
appears gives idle. -/
theorem claude_status_ordering (lines : List ClaudeLine) :
    (posToInt (lastMarkerPos isTurnDurationLine lines) >
        posToInt (lastMarkerPos isAssistantLine lines) →
      (scanClaudeJSONL lines).status = StatusIdle) ∧
    (posToInt (lastMarkerPos isAssistantLine lines) >
        posToInt (lastMarkerPos isTurnDurationLine lines) →
      (scanClaudeJSONL lines).status = StatusBusy) ∧
    (lastMarkerPos isTurnDurationLine lines = none ∧
        lastMarkerPos isAssistantLine lines = none →
      (scanClaudeJSONL lines).status = StatusIdle) := by
  obtain ⟨htd, ha⟩ := scan_markers_eq lines
  refine ⟨?_, ?_, ?_⟩
  · intro h
    unfold scanClaudeJSONL
    simp only [htd, ha]
    rw [if_pos h]
  · intro h
    unfold scanClaudeJSONL
    simp only [htd, ha]
    rw [if_neg (by omega), if_pos h]
  · rintro ⟨h1, h2⟩
    unfold scanClaudeJSONL
    simp only [htd, ha, h1, h2]
    rfl

/-- Witness for C1: the three branches applied to concrete transcripts.
Transcript A ends with a turn_duration after an assistant entry (idle);
transcript B has an assistant entry after the last turn_duration (busy);
transcript C has neither marker (idle). -/
theorem claude_status_ordering_witness :
    (scanClaudeJSONL
        [ClaudeLine.entry ⟨"assistant", "", "", ""⟩,
         ClaudeLine.entry ⟨"system", "turn_duration", "", ""⟩]).status =
      StatusIdle ∧
    (scanClaudeJSONL
        [ClaudeLine.entry ⟨"system", "turn_duration", "", ""⟩,
         ClaudeLine.entry ⟨"assistant", "", "", ""⟩]).status =
      StatusBusy ∧
    (scanClaudeJSONL [ClaudeLine.blank, ClaudeLine.malformed]).status =
      StatusIdle := by
  refine ⟨?_, ?_, ?_⟩
  · exact (claude_status_ordering _).1 (by decide)
  · exact (claude_status_ordering _).2.1 (by decide)
  · exact (claude_status_ordering _).2.2 (by decide)

theorem foldl_lastNonBlank (lines : List RolloutLine) :
    ∀ acc : Option RolloutLine,
      lines.foldl (fun acc l => if rolloutBlank l then acc else some l) acc =
        match lastNonBlank lines with
        | some x => some x
        | none => acc := by
  induction lines with
  | nil => intro acc; rfl
  | cons l ls ih =>
      intro acc
      rw [List.foldl_cons, ih]
      cases hls : lastNonBlank ls with
      | some x => simp [lastNonBlank, hls]
      | none =>
          cases hl : rolloutBlank l <;> simp [lastNonBlank, hls, hl]

/-- The kept last line is never a blank line. -/
theorem lastNonBlank_ne_blank (lines : List RolloutLine) :
    lastNonBlank lines ≠ some RolloutLine.blank := by
  induction lines with
  | nil => simp [lastNonBlank]
  | cons l ls ih =>
      simp only [lastNonBlank]
      cases hls : lastNonBlank ls with
      | some x =>
          intro h
          exact ih (hls.trans h)
      | none =>
          cases l <;> simp [rolloutBlank]

/-- Evaluation of readRolloutStatus on readable content via the
declarative last non-blank line. -/
theorem readRolloutStatus_some_eq (lines : List RolloutLine) :
    readRolloutStatus (some lines) =
      match lastNonBlank lines with
      | none => StatusUnknown
      | some RolloutLine.blank => StatusUnknown
      | some RolloutLine.malformed => StatusUnknown
      | some (RolloutLine.record t) =>
          if t = "task_complete" then StatusIdle else StatusBusy := by
  have h0 : readRolloutStatus (some lines) =
      match lines.foldl
          (fun acc l => if rolloutBlank l then acc else some l) none with
      | none => StatusUnknown
      | some RolloutLine.blank => StatusUnknown
      | some RolloutLine.malformed => StatusUnknown
      | some (RolloutLine.record t) =>
          if t = "task_complete" then StatusIdle else StatusBusy := rfl
  rw [h0, foldl_lastNonBlank lines none]
  cases lastNonBlank lines with
  | none => rfl
  | some x => rfl

/-- Claim C2: Codex status inference — a readable rollout file whose
last non-blank line parses with payload.type "task_complete" yields
idle; one whose last non-blank line parses with any other payload.type
yields busy; a file with no non-blank line yields unknown. -/
theorem codex_rollout_status (lines : List RolloutLine) :
    (lastNonBlank lines = some (RolloutLine.record "task_complete") →
      readRolloutStatus (some lines) = StatusIdle) ∧
    (∀ t, t ≠ "task_complete" →
      lastNonBlank lines = some (RolloutLine.record t) →
      readRolloutStatus (some lines) = StatusBusy) ∧
    (lastNonBlank lines = none →
      readRolloutStatus (some lines) = StatusUnknown) := by
  refine ⟨?_, ?_, ?_⟩
  · intro h
    rw [readRolloutStatus_some_eq, h]
    simp
  · intro t ht h
    rw [readRolloutStatus_some_eq, h]
    simp [ht]
  · intro h
    rw [readRolloutStatus_some_eq, h]

/-- Witness for C2: the three branches on concrete rollout files. -/
theorem codex_rollout_status_witness :
    readRolloutStatus
        (some [RolloutLine.record "task_started",
               RolloutLine.record "task_complete"]) = StatusIdle ∧
    readRolloutStatus
        (some [RolloutLine.record "task_complete",
               RolloutLine.record "task_started"]) = StatusBusy ∧
    readRolloutStatus (some [RolloutLine.blank]) = StatusUnknown := by
  refine ⟨?_, ?_, ?_⟩
  · exact (codex_rollout_status _).1 (by decide)
  · exact (codex_rollout_status _).2.1 "task_started" (by decide) (by decide)
  · exact (codex_rollout_status _).2.2 (by decide)

/-- Counterexample to claim C3: the claim says an unparsable last line
and an empty file yield busy, but readRolloutStatus returns unknown on a
file whose only line is unparsable JSON, and unknown on an empty file. -/
theorem codex_error_cases_counterexample :
    readRolloutStatus (some [RolloutLine.malformed]) = StatusUnknown ∧
    readRolloutStatus (some []) = StatusUnknown ∧
    StatusUnknown ≠ StatusBusy := by
  refine ⟨rfl, rfl, by decide⟩

/-- Claim C3 (amended): a readable rollout file whose last non-blank
line parses with a payload.type other than "task_complete" yields busy;
an unparsable last non-blank line, a file with no non-blank line, and an
I/O failure opening the file all yield unknown (and "task_complete"
yields idle).  These cases are exhaustive. -/
theorem codex_error_cases_amended (content : Option (List RolloutLine)) :
    (content = none → readRolloutStatus content = StatusUnknown) ∧
    (∀ lines, content = some lines →
      (lastNonBlank lines = none →
        readRolloutStatus content = StatusUnknown) ∧
      (lastNonBlank lines = some RolloutLine.malformed →
        readRolloutStatus content = StatusUnknown) ∧
      (lastNonBlank lines = some (RolloutLine.record "task_complete") →
        readRolloutStatus content = StatusIdle) ∧
      (∀ t, t ≠ "task_complete" →
        lastNonBlank lines = some (RolloutLine.record t) →
        readRolloutStatus content = StatusBusy)) := by
  refine ⟨?_, ?_⟩
  · intro h; rw [h]; rfl
  · intro lines hc
    subst hc
    refine ⟨?_, ?_, ?_, ?_⟩
    · intro h
      rw [readRolloutStatus_some_eq, h]
    · intro h
      rw [readRolloutStatus_some_eq, h]
    · intro h
      rw [readRolloutStatus_some_eq, h]
      simp
    · intro t ht h
      rw [readRolloutStatus_some_eq, h]
      simp [ht]

/-- Witness for the amended C3: all five branches on concrete inputs. -/
theorem codex_error_cases_amended_witness :
    readRolloutStatus none = StatusUnknown ∧
    readRolloutStatus (some [RolloutLine.blank]) = StatusUnknown ∧
    readRolloutStatus (some [RolloutLine.malformed, RolloutLine.blank]) =
      StatusUnknown ∧
    readRolloutStatus (some [RolloutLine.record "task_complete"]) =
      StatusIdle ∧
    readRolloutStatus (some [RolloutLine.record "agent_message"]) =
      StatusBusy := by
  refine ⟨?_, ?_, ?_, ?_, ?_⟩
  · exact (codex_error_cases_amended none).1 rfl
  · exact ((codex_error_cases_amended _).2 _ rfl).1 (by decide)
  · exact ((codex_error_cases_amended _).2 _ rfl).2.1 (by decide)
  · exact ((codex_error_cases_amended _).2 _ rfl).2.2.1 (by decide)
  · exact ((codex_error_cases_amended _).2 _ rfl).2.2.2 "agent_message"
      (by decide) (by decide)

theorem ampStatusScan_eq_find (ms : List ampMessage) :
    ampStatusScan ms =
      match ms.find? (fun m => decide (m.role = "assistant")) with
      | some m => ampStatus m.state
      | none => StatusIdle := by
  induction ms with
  | nil => rfl
  | cons m rest ih =>
      by_cases h : m.role = "assistant"
      · simp [ampStatusScan, List.find?_cons, h]
      · simp only [ampStatusScan, if_neg h, ih]
        rw [List.find?_cons_of_neg]
        simp [h]

theorem lastAssistantMsg_eq_find_reverse (ms : List ampMessage) :
    lastAssistantMsg ms =
      ms.reverse.find? (fun m => decide (m.role = "assistant")) := by
  induction ms with
  | nil => rfl
  | cons m rest ih =>
      simp only [lastAssistantMsg, ih, List.reverse_cons, List.find?_append]
      cases rest.reverse.find? (fun m => decide (m.role = "assistant")) with
      | some x => rfl
      | none =>
          by_cases h : m.role = "assistant" <;>
            simp [List.find?_cons, h, Option.or]

/-- Claim C5: Amp status inference — the status of a thread is derived
from the last assistant-role message: streaming gives busy; complete
with stop reason tool_use gives busy; complete with any other stop
reason gives idle; cancelled, error, and empty/absent states give idle;
a thread without an assistant message gives idle. -/
theorem amp_status_last_assistant (t : ampThread) :
    (lastAssistantMsg t.messages = none →
      ampStatusFromThread t = StatusIdle) ∧
    (∀ m, lastAssistantMsg t.messages = some m →
      ampStatusFromThread t =
        if m.state.type = "streaming" then StatusBusy
        else if m.state.type = "complete" then
          if m.state.stopReason = "tool_use" then StatusBusy else StatusIdle
        else StatusIdle) := by
  have key : ampStatusFromThread t =
      match lastAssistantMsg t.messages with
      | some m => ampStatus m.state
      | none => StatusIdle := by
    rw [ampStatusFromThread, ampStatusScan_eq_find,
      lastAssistantMsg_eq_find_reverse]
  refine ⟨?_, ?_⟩
  · intro h
    rw [key, h]
  · intro m h
    rw [key, h]
    show ampStatus m.state = _
    unfold ampStatus
    by_cases h1 : m.state.type = "streaming"
    · simp [h1]
    · by_cases h2 : m.state.type = "complete"
      · simp [h1, h2]
      · by_cases h3 : m.state.type = "cancelled"
        · simp [h1, h2, h3]
        · by_cases h4 : m.state.type = "error" <;> simp [h1, h2, h3, h4]

/-- Witness for C5: the branches applied to concrete threads — no
assistant message; streaming; complete with tool_use; complete with
end_turn. -/
theorem amp_status_last_assistant_witness :
    ampStatusFromThread ⟨⟨⟨[]⟩⟩, [⟨"user", ⟨"", ""⟩⟩]⟩ = StatusIdle ∧
    ampStatusFromThread
        ⟨⟨⟨[]⟩⟩, [⟨"assistant", ⟨"streaming", ""⟩⟩]⟩ = StatusBusy ∧
    ampStatusFromThread
        ⟨⟨⟨[]⟩⟩, [⟨"assistant", ⟨"complete", "tool_use"⟩⟩,
                  ⟨"user", ⟨"", ""⟩⟩]⟩ = StatusBusy ∧
    ampStatusFromThread
        ⟨⟨⟨[]⟩⟩, [⟨"assistant", ⟨"complete", "end_turn"⟩⟩]⟩ = StatusIdle := by
  refine ⟨?_, ?_, ?_, ?_⟩
  · exact (amp_status_last_assistant _).1 (by decide)
  · exact ((amp_status_last_assistant _).2
      ⟨"assistant", ⟨"streaming", ""⟩⟩ (by decide)).trans (by decide)
  · exact ((amp_status_last_assistant _).2
      ⟨"assistant", ⟨"complete", "tool_use"⟩⟩ (by decide)).trans (by decide)
  · exact ((amp_status_last_assistant _).2
      ⟨"assistant", ⟨"complete", "end_turn"⟩⟩ (by decide)).trans (by decide)

theorem mem_insertLe (le : α → α → Bool) (a x : α) (l : List α) :
    x ∈ insertLe le a l ↔ x = a ∨ x ∈ l := by
  induction l with
  | nil => simp [insertLe]
  | cons y ys ih =>
      by_cases h : le a y = true
      · simp [insertLe, h]
      · simp only [insertLe, if_neg h, List.mem_cons, ih]
        tauto

theorem mem_sortLe (le : α → α → Bool) (x : α) (l : List α) :
    x ∈ sortLe le l ↔ x ∈ l := by
  induction l with
  | nil => simp [sortLe]
  | cons y ys ih =>
      show x ∈ insertLe le y (sortLe le ys) ↔ _
      rw [mem_insertLe]
      simp [ih]

theorem length_insertLe (le : α → α → Bool) (a : α) (l : List α) :
    (insertLe le a l).length = l.length + 1 := by
  induction l with
  | nil => rfl
  | cons y ys ih =>
      by_cases h : le a y = true <;> simp [insertLe, h, ih]

theorem length_sortLe (le : α → α → Bool) (l : List α) :
    (sortLe le l).length = l.length := by
  induction l with
  | nil => rfl
  | cons y ys ih =>
      show (insertLe le y (sortLe le ys)).length = ys.length + 1
      rw [length_insertLe, ih]

/-- Claim C10 (implicit): a candidate Amp PID whose working directory is
unreadable (the platform returns "-" or the empty string) yields no
session record at all — probeAmpPID returns none — whereas a PID with a
readable directory but no matching thread is still reported, with
status unknown. -/
theorem amp_unreadable_cwd_dropped (w : AmpWorld) (pid : Int) :
    (w.cwd pid = "" ∨ w.cwd pid = "-" → probeAmpPID w pid = none) ∧
    (¬(w.cwd pid = "" ∨ w.cwd pid = "-") →
      matchThreadByCwd (w.cwd pid) w.threads = none →
      probeAmpPID w pid =
        some { agent := "amp", status := StatusUnknown,
               directory := w.cwd pid, pid := pid }) := by
  refine ⟨?_, ?_⟩
  · intro h
    unfold probeAmpPID
    rw [if_pos h]
  · intro h hm
    unfold probeAmpPID
    rw [if_neg h, hm]

/-- Witness for C10: a PID whose cwd reads as "-" is dropped; a PID with
readable cwd but no matching thread is reported unknown. -/
theorem amp_unreadable_cwd_dropped_witness :
    probeAmpPID ⟨[7], [], fun _ => "-"⟩ 7 = none ∧
    probeAmpPID
        ⟨[7],
         [⟨"/t/T-1.json", 5, ⟨⟨⟨[⟨"proj", "file:///work/proj"⟩]⟩⟩, []⟩⟩],
         fun _ => "/home/elsewhere"⟩ 7 =
      some { agent := "amp", status := StatusUnknown,
             directory := "/home/elsewhere", pid := 7 } := by
  constructor
  · exact (amp_unreadable_cwd_dropped ⟨[7], [], fun _ => "-"⟩ 7).1
      (by right; rfl)
  · exact (amp_unreadable_cwd_dropped _ 7).2 (by decide) (by decide)

theorem pairLoop_length (matching : List geminiSessionFile) (cwd : String)
    (pids : List Int) :
    ∀ i, (pairLoop matching cwd i pids).length = pids.length := by
  induction pids with
  | nil => intro i; rfl
  | cons p rest ih =>
      intro i
      show (_ :: pairLoop matching cwd (i + 1) rest).length = _
      simp [ih (i + 1)]

theorem pairLoop_get_unknown (matching : List geminiSessionFile)
    (cwd : String) (pids : List Int) :
    ∀ i j (h : j < (pairLoop matching cwd i pids).length),
      matching.length ≤ i + j →
      ((pairLoop matching cwd i pids).get ⟨j, h⟩).status = StatusUnknown := by
  induction pids with
  | nil =>
      intro i j h
      simp [pairLoop] at h
  | cons p rest ih =>
      intro i j h hle
      cases j with
      | zero =>
          simp only [pairLoop, List.get]
          rw [dif_neg (by omega)]
      | succ j' =>
          simp only [pairLoop, List.get]
          exact ih (i + 1) j' _ (by omega)

/-- Claim C4: Gemini correlation — (1) parent filtering removes exactly
the PIDs whose parent PID is also a candidate; (2) within a directory
group, two sessions with start times T1 < T2 and two PIDs P1 < P2 pair
as P1-with-T1 and P2-with-T2, whatever order they arrived in; (3) every
sorted-position beyond the number of matched sessions is reported with
status unknown. -/
theorem gemini_correlation :
    (∀ (ppid : Int → Int) (pids : List Int) (p : Int),
      p ∈ filterGeminiParents ppid pids ↔ p ∈ pids ∧ ppid p ∉ pids) ∧
    (∀ (cwd : String) (p1 p2 : Int) (s1 s2 : geminiSessionFile)
        (lp : List Int) (ls : List geminiSessionFile),
      p1 < p2 → strLtB s1.data.startTime s2.data.startTime = true →
      lp = [p1, p2] ∨ lp = [p2, p1] →
      ls = [s1, s2] ∨ ls = [s2, s1] →
      pairGeminiGroup cwd lp ls =
        [{ agent := "gemini", status := geminiStatusFromSession s1.data,
           sessionID := s1.data.sessionID, directory := cwd, pid := p1 },
         { agent := "gemini", status := geminiStatusFromSession s2.data,
           sessionID := s2.data.sessionID, directory := cwd, pid := p2 }]) ∧
    (∀ (cwd : String) (lp : List Int) (ls : List geminiSessionFile)
        (j : Nat) (h : j < (pairGeminiGroup cwd lp ls).length),
      ls.length ≤ j →
      ((pairGeminiGroup cwd lp ls).get ⟨j, h⟩).status = StatusUnknown) := by
  refine ⟨?_, ?_, ?_⟩
  · intro ppid pids p
    simp [filterGeminiParents, List.mem_filter]
  · intro cwd p1 p2 s1 s2 lp ls hp hs hlp hls
    have hp' : decide (p1 ≤ p2) = true := by simp [hp.le]
    have hp'' : decide (p2 ≤ p1) = false := by simp; omega
    have hs' : strLtB s2.data.startTime s1.data.startTime = false := by
      simp only [strLtB, decide_eq_true_eq, decide_eq_false_iff_not] at *
      exact lt_asymm hs
    have hsort : sortLe (fun a b => decide (a ≤ b)) lp = [p1, p2] := by
      rcases hlp with rfl | rfl
      · simp [sortLe, insertLe, hp']
      · simp [sortLe, insertLe, hp'']
    have hsort2 : sortLe
        (fun a b => strLtB a.data.startTime b.data.startTime) ls =
        [s1, s2] := by
      rcases hls with rfl | rfl
      · simp [sortLe, insertLe, hs]
      · simp [sortLe, insertLe, hs']
    unfold pairGeminiGroup
    rw [hsort, hsort2]
    rfl
  · intro cwd lp ls j h hj
    unfold pairGeminiGroup at h ⊢
    refine pairLoop_get_unknown _ cwd _ 0 j h ?_
    rw [length_sortLe]
    omega

/-- Witness for C4: the three parts at concrete inputs — a parent/child
pair where the child is filtered; two PIDs and two sessions arriving in
reversed order that pair by start time; a second PID with only one
session that is reported unknown. -/
theorem gemini_correlation_witness :
    (3 ∈ filterGeminiParents (fun p => if p = 4 then 3 else 1) [3, 4] ↔
      3 ∈ [(3 : Int), 4] ∧ (1 : Int) ∉ [(3 : Int), 4]) ∧
    pairGeminiGroup "/w" [20, 10]
        [⟨"b", 0, "/g/w", ⟨"sidB", "2026-01-02", "", []⟩⟩,
         ⟨"a", 0, "/g/w", ⟨"sidA", "2026-01-01", "", []⟩⟩] =
      [{ agent := "gemini",
         status := geminiStatusFromSession ⟨"sidA", "2026-01-01", "", []⟩,
         sessionID := "sidA", directory := "/w", pid := 10 },
       { agent := "gemini",
         status := geminiStatusFromSession ⟨"sidB", "2026-01-02", "", []⟩,
         sessionID := "sidB", directory := "/w", pid := 20 }] ∧
    ((pairGeminiGroup "/w" [5, 6]
        [⟨"a", 0, "/g/w", ⟨"sidA", "2026-01-01", "", []⟩⟩]).get
      ⟨1, by decide⟩).status = StatusUnknown := by
  refine ⟨?_, ?_, ?_⟩
  · exact gemini_correlation.1 (fun p => if p = 4 then 3 else 1) [3, 4] 3
  · exact gemini_correlation.2.1 "/w" 10 20
      ⟨"a", 0, "/g/w", ⟨"sidA", "2026-01-01", "", []⟩⟩
      ⟨"b", 0, "/g/w", ⟨"sidB", "2026-01-02", "", []⟩⟩
      [20, 10] _ (by decide) (by decide) (Or.inr rfl) (Or.inr rfl)
  · exact gemini_correlation.2.2 "/w" [5, 6]
      [⟨"a", 0, "/g/w", ⟨"sidA", "2026-01-01", "", []⟩⟩] 1 (by decide)
      (by decide)

/-- Claim C9: platform introspection degrades instead of failing — the
cwd read returns the "-" sentinel on failure and a value on success
(it is total, never an error); the open-files listing, PID enumeration
and socket snapshot return empty results on failure; a single
unreadable handle or cmdline is skipped rather than aborting the
enumeration. -/
theorem platform_error_degradation :
    (ReadProcessCwd none = "-") ∧
    (∀ res : Option String, ReadProcessCwd res = "-" ∨
      ∃ link, res = some link ∧ ReadProcessCwd res = link) ∧
    (ListOpenFiles none = []) ∧
    (∀ entries, ListOpenFiles (some (none :: entries)) =
      ListOpenFiles (some entries)) ∧
    (∀ re, FindPIDsByName re none = []) ∧
    (∀ re pid entries,
      FindPIDsByName re (some (⟨pid, none⟩ :: entries)) =
        FindPIDsByName re (some entries)) ∧
    (FindListenTCP none = []) ∧
    (∀ parsedLines, FindListenTCP (some (none :: parsedLines)) =
      FindListenTCP (some parsedLines)) := by
  refine ⟨rfl, ?_, rfl, ?_, ?_, ?_, rfl, ?_⟩
  · intro res
    cases res with
    | none => left; rfl
    | some link => right; exact ⟨link, rfl, rfl⟩
  · intro entries
    simp [ListOpenFiles]
  · intro re; rfl
  · intro re pid entries
    simp [FindPIDsByName]
  · intro parsedLines
    simp [FindListenTCP]

/-- Every entry of the listening-socket snapshot has a positive PID and
port: the parse loop filters on both. -/
theorem FindListenTCP_pos (raw : Option (List (Option ListenEntry)))
    (e : ListenEntry) (he : e ∈ FindListenTCP raw) :
    e.port > 0 ∧ e.pid > 0 := by
  cases raw with
  | none => simp [FindListenTCP] at he
  | some parsedLines =>
      simp only [FindListenTCP, List.mem_filterMap] at he
      obtain ⟨m, _, hm⟩ := he
      cases m with
      | none => simp at hm
      | some e0 =>
          change (if e0.port > 0 ∧ e0.pid > 0 then some e0 else none) =
            some e at hm
          by_cases h : e0.port > 0 ∧ e0.pid > 0
          · rw [if_pos h] at hm
            cases hm
            exact h
          · rw [if_neg h] at hm
            cases hm

theorem ConcurrentProbeRun_eq_filterMap (probe : α → Option AgentSession)
    (order : List α) :
    ConcurrentProbeRun order probe = order.filterMap probe := by
  have key : ∀ (l : List α) (acc : List AgentSession),
      l.foldl (fun results it =>
        match probe it with
        | some session => results ++ [session]
        | none => results) acc = acc ++ l.filterMap probe := by
    intro l
    induction l with
    | nil => intro acc; simp
    | cons x xs ih =>
        intro acc
        rw [List.foldl_cons]
        cases hx : probe x with
        | none =>
            simp only [hx, ih]
            simp [List.filterMap_cons, hx]
        | some session =>
            simp only [hx, ih]
            simp [List.filterMap_cons, hx]
  exact (key order []).trans (by simp)

/-- Claim C8: the concurrent probe runner — whatever order the per-item
tasks complete in, the collected output is, as a multiset, exactly the
non-nil results of the probe applied to every item: every item is
probed, every non-nil result appears exactly once, nil results are
dropped, and the join semantics means the whole completion order is
consumed before returning. -/
theorem concurrent_probe_multiset (items : List α)
    (probe : α → Option AgentSession) (order : List α)
    (h : order.Perm items) :
    (ConcurrentProbeRun order probe : Multiset AgentSession) =
      (ConcurrentProbe items probe : Multiset AgentSession) := by
  rw [Multiset.coe_eq_coe, ConcurrentProbeRun_eq_filterMap]
  exact h.filterMap probe

/-- Witness for C8: three items probed in a different completion order;
the one nil probe result is dropped and the output multisets agree. -/
theorem concurrent_probe_multiset_witness :
    (ConcurrentProbeRun [3, 1, 2]
        (fun n : Int => if n % 2 = 1
          then some { agent := "a", status := StatusBusy, pid := n }
          else none) : Multiset AgentSession) =
      (ConcurrentProbe [1, 2, 3]
        (fun n : Int => if n % 2 = 1
          then some { agent := "a", status := StatusBusy, pid := n }
          else none) : Multiset AgentSession) := by
  exact concurrent_probe_multiset [1, 2, 3] _ [3, 1, 2] (by decide)

theorem statusOK_unknown : statusOK StatusUnknown :=
  Or.inr (Or.inr (Or.inr rfl))

theorem statusOK_readRolloutStatus (c : Option (List RolloutLine)) :
    statusOK (readRolloutStatus c) := by
  cases c with
  | none => exact statusOK_unknown
  | some lines =>
      rw [readRolloutStatus_some_eq]
      cases lastNonBlank lines with
      | none => exact statusOK_unknown
      | some l =>
          cases l with
          | blank => exact statusOK_unknown
          | malformed => exact statusOK_unknown
          | record t =>
              change statusOK
                (if t = "task_complete" then StatusIdle else StatusBusy)
              by_cases h : t = "task_complete"
              · rw [if_pos h]
                exact Or.inr (Or.inl rfl)
              · rw [if_neg h]
                exact Or.inl rfl

theorem statusOK_scanClaudeJSONL (lines : List ClaudeLine) :
    statusOK (scanClaudeJSONL lines).status := by
  unfold scanClaudeJSONL
  dsimp only
  split
  · exact Or.inr (Or.inl rfl)
  · split
    · exact Or.inl rfl
    · exact Or.inr (Or.inl rfl)

theorem statusOK_readClaudeStatus (c : Option (List ClaudeLine)) :
    statusOK (readClaudeStatus c).status := by
  cases c with
  | none => exact statusOK_unknown
  | some lines => exact statusOK_scanClaudeJSONL lines

theorem statusOK_ampStatus (state : ampState) :
    statusOK (ampStatus state) := by
  unfold ampStatus
  split
  · exact Or.inl rfl
  · split
    · split
      · exact Or.inl rfl
      · exact Or.inr (Or.inl rfl)
    · split
      · exact Or.inr (Or.inl rfl)
      · split
        · exact Or.inr (Or.inl rfl)
        · exact Or.inr (Or.inl rfl)

theorem statusOK_ampStatusFromThread (t : ampThread) :
    statusOK (ampStatusFromThread t) := by
  unfold ampStatusFromThread
  rw [ampStatusScan_eq_find]
  cases t.messages.reverse.find? (fun m => decide (m.role = "assistant")) with
  | none => exact Or.inr (Or.inl rfl)
  | some m => exact statusOK_ampStatus m.state

theorem statusOK_geminiStatusFromSession (session : geminiSession) :
    statusOK (geminiStatusFromSession session) := by
  unfold geminiStatusFromSession
  cases session.messages.getLast? with
  | none => exact Or.inr (Or.inl rfl)
  | some lastMsg =>
      change statusOK
        (if lastMsg.type = "user" then StatusBusy else StatusIdle)
      by_cases h : lastMsg.type = "user"
      · rw [if_pos h]
        exact Or.inl rfl
      · rw [if_neg h]
        exact Or.inr (Or.inl rfl)

theorem probeCodexPID_some (w : CodexWorld) (pid : Int) (s : AgentSession)
    (h : probeCodexPID w pid = some s) :
    s.agent = "codex" ∧ s.pid = pid ∧ statusOK s.status ∧
    (w.db s.sessionID = none → s.title = "-") ∧
    (∀ info, w.db s.sessionID = some info → s.title = info.title) := by
  unfold probeCodexPID at h
  dsimp only at h
  by_cases h1 : (findRolloutFile w pid).1 = ""
  · rw [if_pos h1] at h
    simp at h
  · rw [if_neg h1] at h
    cases hdb : w.db (findRolloutFile w pid).2 with
    | some info =>
        rw [hdb] at h
        cases h
        refine ⟨rfl, rfl, statusOK_readRolloutStatus _, ?_, ?_⟩
        · intro hnone
          dsimp only at hnone
          rw [hdb] at hnone
          cases hnone
        · intro info' hinfo
          dsimp only at hinfo
          rw [hdb] at hinfo
          cases hinfo
          rfl
    | none =>
        rw [hdb] at h
        cases h
        refine ⟨rfl, rfl, statusOK_readRolloutStatus _, fun _ => rfl, ?_⟩
        intro info' hinfo
        dsimp only at hinfo
        rw [hdb] at hinfo
        cases hinfo

theorem probeClaudePID_some (w : ClaudeWorld) (pid : Int) (s : AgentSession)
    (h : probeClaudePID w pid = some s) :
    s.agent = "claude" ∧ s.pid = pid ∧ statusOK s.status ∧ s.title ≠ "" ∧
    (w.cwd pid ≠ "" → s.directory ≠ "") := by
  cases hmap : w.pidMap pid with
  | none => simp [probeClaudePID, hmap] at h
  | some sessionID =>
      simp only [probeClaudePID, hmap] at h
      by_cases hsid : sessionID = ""
      · rw [if_pos hsid] at h
        cases h
      · rw [if_neg hsid] at h
        cases hres : w.resolve sessionID with
        | none =>
            rw [hres] at h
            cases h
        | some path =>
            rw [hres] at h
            dsimp only at h
            cases h
            refine ⟨rfl, rfl, statusOK_readClaudeStatus _, ?_, ?_⟩
            · show (if (readClaudeStatus (w.content path)).slug = ""
                  then "-"
                  else (readClaudeStatus (w.content path)).slug) ≠ ""
              by_cases hslug : (readClaudeStatus (w.content path)).slug = ""
              · rw [if_pos hslug]
                decide
              · rw [if_neg hslug]
                exact hslug
            · intro hcwd
              show (if (readClaudeStatus (w.content path)).cwd = ""
                  then w.cwd pid
                  else (readClaudeStatus (w.content path)).cwd) ≠ ""
              by_cases hc : (readClaudeStatus (w.content path)).cwd = ""
              · rw [if_pos hc]
                exact hcwd
              · rw [if_neg hc]
                exact hc

theorem probeAmpPID_some (w : AmpWorld) (pid : Int) (s : AgentSession)
    (h : probeAmpPID w pid = some s) :
    s.agent = "amp" ∧ s.pid = pid ∧ statusOK s.status ∧
    (s.status = StatusUnknown ∧ s.title = "" ∨
     ∃ thread, matchThreadByCwd (w.cwd pid) w.threads = some thread ∧
       s.status = ampStatusFromThread thread.data ∧
       (thread.data.env.initial.trees = [] ∧ s.title = "-" ∨
        ∃ tr rest, thread.data.env.initial.trees = tr :: rest ∧
          s.title = tr.displayName)) := by
  unfold probeAmpPID at h
  dsimp only at h
  by_cases h1 : w.cwd pid = "" ∨ w.cwd pid = "-"
  · rw [if_pos h1] at h
    cases h
  · rw [if_neg h1] at h
    cases hm : matchThreadByCwd (w.cwd pid) w.threads with
    | none =>
        rw [hm] at h
        cases h
        exact ⟨rfl, rfl, statusOK_unknown, Or.inl ⟨rfl, rfl⟩⟩
    | some thread =>
        rw [hm] at h
        cases h
        refine ⟨rfl, rfl, statusOK_ampStatusFromThread _,
          Or.inr ⟨thread, rfl, rfl, ?_⟩⟩
        cases htr : thread.data.env.initial.trees with
        | nil => exact Or.inl ⟨rfl, rfl⟩
        | cons tr rest => exact Or.inr ⟨tr, rest, rfl, rfl⟩

theorem pairLoop_mem (matching : List geminiSessionFile) (cwd : String)
    (pids : List Int) :
    ∀ i s, s ∈ pairLoop matching cwd i pids →
      s.agent = "gemini" ∧ s.title = "" ∧ s.pid ∈ pids ∧
        statusOK s.status := by
  induction pids with
  | nil => intro i s hs; simp [pairLoop] at hs
  | cons p rest ih =>
      intro i s hs
      rw [show pairLoop matching cwd i (p :: rest) =
        (if h : i < matching.length then
          { agent := "gemini",
            status := geminiStatusFromSession (matching.get ⟨i, h⟩).data,
            sessionID := (matching.get ⟨i, h⟩).data.sessionID,
            directory := cwd, pid := p }
        else
          { agent := "gemini", status := StatusUnknown,
            directory := cwd, pid := p })
        :: pairLoop matching cwd (i + 1) rest from rfl] at hs
      rcases List.mem_cons.1 hs with heq | htail
      · subst heq
        by_cases hc : i < matching.length
        · rw [dif_pos hc]
          exact ⟨rfl, rfl, List.mem_cons_self p rest,
            statusOK_geminiStatusFromSession _⟩
        · rw [dif_neg hc]
          exact ⟨rfl, rfl, List.mem_cons_self p rest, statusOK_unknown⟩
      · obtain ⟨ha, ht, hp, hst⟩ := ih (i + 1) s htail
        exact ⟨ha, ht, List.mem_cons_of_mem p hp, hst⟩

theorem DiscoverGemini_mem (w : GeminiWorld) (s : AgentSession)
    (hs : s ∈ DiscoverGemini w) :
    s.agent = "gemini" ∧ s.title = "" ∧ s.pid ∈ w.pids ∧
      statusOK s.status := by
  unfold DiscoverGemini at hs
  by_cases h1 : w.pids = []
  · rw [if_pos h1] at hs
    simp at hs
  · rw [if_neg h1] at hs
    dsimp only at hs
    by_cases h2 : w.sessions = []
    · rw [if_pos h2] at hs
      rw [List.mem_map] at hs
      obtain ⟨pid, hpid, heq⟩ := hs
      subst heq
      refine ⟨rfl, rfl, ?_, statusOK_unknown⟩
      unfold filterGeminiParents at hpid
      exact (List.mem_filter.1 hpid).1
    · rw [if_neg h2] at hs
      rw [List.mem_flatMap] at hs
      obtain ⟨g, hg, hsg⟩ := hs
      unfold pairGeminiGroup at hsg
      obtain ⟨ha, ht, hp, hst⟩ := pairLoop_mem _ _ _ 0 s hsg
      rw [mem_sortLe] at hp
      refine ⟨ha, ht, ?_, hst⟩
      unfold groupPidsByCwd at hg
      rw [List.mem_map] at hg
      obtain ⟨c, _, heq⟩ := hg
      subst heq
      rw [List.mem_map] at hp
      obtain ⟨e, he, hpe⟩ := hp
      have he' := (List.mem_filter.1 he).1
      rw [List.mem_filterMap] at he'
      obtain ⟨pid0, hpid0, heq0⟩ := he'
      by_cases hb : w.cwd pid0 = "" ∨ w.cwd pid0 = "-"
      · rw [if_pos hb] at heq0
        cases heq0
      · rw [if_neg hb] at heq0
        cases heq0
        rw [← hpe]
        unfold filterGeminiParents at hpid0
        exact (List.mem_filter.1 hpid0).1

theorem findOCInstancesLoop_mem (entries : List ListenEntry) :
    ∀ (seen : List Int) (inst : openCodeInstance),
      inst ∈ findOCInstancesLoop entries seen →
      ∃ e ∈ entries, inst.port = e.port ∧ inst.pid = e.pid := by
  induction entries with
  | nil => intro seen inst h; simp [findOCInstancesLoop] at h
  | cons e rest ih =>
      intro seen inst h
      unfold findOCInstancesLoop at h
      by_cases hc : (strEqualFold e.cmd "opencode" &&
          !(seen.contains e.pid)) = true
      · rw [if_pos hc] at h
        rcases List.mem_cons.1 h with heq | htail
        · subst heq
          exact ⟨e, List.mem_cons_self e rest, rfl, rfl⟩
        · obtain ⟨e', he', hp⟩ := ih (e.pid :: seen) inst htail
          exact ⟨e', List.mem_cons_of_mem e he', hp⟩
      · rw [if_neg hc] at h
        obtain ⟨e', he', hp⟩ := ih seen inst h
        exact ⟨e', List.mem_cons_of_mem e he', hp⟩

theorem queryOpenCodeInstance_some (w : OpenCodeWorld)
    (inst : openCodeInstance) (s : AgentSession)
    (h : queryOpenCodeInstance w inst = some s) :
    s.agent = "opencode" ∧ s.pid = inst.pid ∧
    (s.status = StatusIdle ∨
      ∃ id e rest, w.statusMap inst.port = (id, e) :: rest ∧
        s.status = e.type) := by
  unfold queryOpenCodeInstance at h
  cases hsm : w.statusMap inst.port with
  | nil =>
      rw [hsm] at h
      cases h
      exact ⟨rfl, rfl, Or.inl rfl⟩
  | cons p rest =>
      obtain ⟨id, entry⟩ := p
      rw [hsm] at h
      dsimp only at h
      cases hsl : w.sessionList inst.port with
      | none =>
          rw [hsl] at h
          cases h
          exact ⟨rfl, rfl, Or.inr ⟨id, entry, rest, rfl, rfl⟩⟩
      | some sessions =>
          rw [hsl] at h
          dsimp only at h
          cases hf : sessions.find? (fun s0 => decide (s0.id = id)) with
          | none =>
              rw [hf] at h
              cases h
              exact ⟨rfl, rfl, Or.inr ⟨id, entry, rest, rfl, rfl⟩⟩
          | some s0 =>
              rw [hf] at h
              cases h
              exact ⟨rfl, rfl, Or.inr ⟨id, entry, rest, rfl, rfl⟩⟩

/-- Counterexample to claim C6: the OpenCode probe copies the HTTP
status verbatim, so a server reporting a status outside the enumeration
produces a record whose status is not one of the four values. -/
theorem session_status_counterexample :
    DiscoverOpenCode
        ⟨some [some ⟨8080, 5, "opencode"⟩],
         fun _ => [("s1", ⟨"weird"⟩)], fun _ => none⟩ =
      [{ agent := "opencode", status := "weird", sessionID := "s1",
         pid := 5 }] ∧
    ¬ statusOK "weird" := by
  constructor
  · decide
  · unfold statusOK StatusBusy StatusIdle StatusRetry StatusUnknown
    decide

/-- Claim C6 (amended): every record of the Codex, Claude, Amp and
Gemini discoverers has a status in {busy, idle, retry, unknown} and a
positive pid whenever the platform supplies positive candidate PIDs;
every OpenCode record has a positive pid (the socket snapshot filters
on it) and a status that is either "idle" or copied verbatim from an
entry of the HTTP status map — so the full invariant holds for OpenCode
exactly when the server reports only the four statuses. -/
theorem session_status_pid_invariant :
    (∀ (w : CodexWorld), (∀ p ∈ w.pids, 0 < p) →
      ∀ s ∈ DiscoverCodex w, statusOK s.status ∧ 0 < s.pid) ∧
    (∀ (w : ClaudeWorld), (∀ p ∈ w.pids, 0 < p) →
      ∀ s ∈ DiscoverClaude w, statusOK s.status ∧ 0 < s.pid) ∧
    (∀ (w : AmpWorld), (∀ p ∈ w.pids, 0 < p) →
      ∀ s ∈ DiscoverAmp w, statusOK s.status ∧ 0 < s.pid) ∧
    (∀ (w : GeminiWorld), (∀ p ∈ w.pids, 0 < p) →
      ∀ s ∈ DiscoverGemini w, statusOK s.status ∧ 0 < s.pid) ∧
    (∀ (w : OpenCodeWorld), ∀ s ∈ DiscoverOpenCode w,
      0 < s.pid ∧ (s.status = StatusIdle ∨
        ∃ port id e, (id, e) ∈ w.statusMap port ∧ s.status = e.type)) ∧
    (∀ (w : OpenCodeWorld),
      (∀ (port : Int) id e, (id, e) ∈ w.statusMap port → statusOK e.type) →
      ∀ s ∈ DiscoverOpenCode w, statusOK s.status ∧ 0 < s.pid) := by
  have oc : ∀ (w : OpenCodeWorld), ∀ s ∈ DiscoverOpenCode w,
      0 < s.pid ∧ (s.status = StatusIdle ∨
        ∃ port id e, (id, e) ∈ w.statusMap port ∧ s.status = e.type) := by
    intro w s hs
    unfold DiscoverOpenCode at hs
    dsimp only at hs
    by_cases h1 : findOpenCodeInstances (FindListenTCP w.listenRaw) = []
    · rw [if_pos h1] at hs
      simp at hs
    · rw [if_neg h1] at hs
      unfold ConcurrentProbe at hs
      rw [List.mem_filterMap] at hs
      obtain ⟨inst, hinst, hq⟩ := hs
      obtain ⟨_, hpidEq, hstatus⟩ := queryOpenCodeInstance_some w inst s hq
      unfold findOpenCodeInstances at hinst
      obtain ⟨e, he, _, hpid⟩ := findOCInstancesLoop_mem _ [] inst hinst
      have hpos := FindListenTCP_pos w.listenRaw e he
      constructor
      · rw [hpidEq, hpid]
        exact hpos.2
      · rcases hstatus with hidle | ⟨id, entry, rest, hsmEq, hst⟩
        · exact Or.inl hidle
        · refine Or.inr ⟨inst.port, id, entry, ?_, hst⟩
          rw [hsmEq]
          exact List.mem_cons_self _ _
  refine ⟨?_, ?_, ?_, ?_, oc, ?_⟩
  · intro w hp s hs
    unfold DiscoverCodex at hs
    by_cases h1 : w.pids = []
    · rw [if_pos h1] at hs
      simp at hs
    · rw [if_neg h1] at hs
      unfold ConcurrentProbe at hs
      rw [List.mem_filterMap] at hs
      obtain ⟨pid, hpid, hprobe⟩ := hs
      obtain ⟨_, hpidEq, hstatus, _, _⟩ := probeCodexPID_some w pid s hprobe
      exact ⟨hstatus, hpidEq ▸ hp pid hpid⟩
  · intro w hp s hs
    unfold DiscoverClaude at hs
    by_cases h1 : w.pids = []
    · rw [if_pos h1] at hs
      simp at hs
    · rw [if_neg h1] at hs
      unfold ConcurrentProbe at hs
      rw [List.mem_filterMap] at hs
      obtain ⟨pid, hpid, hprobe⟩ := hs
      obtain ⟨_, hpidEq, hstatus, _, _⟩ := probeClaudePID_some w pid s hprobe
      exact ⟨hstatus, hpidEq ▸ hp pid hpid⟩
  · intro w hp s hs
    unfold DiscoverAmp at hs
    by_cases h1 : w.pids = []
    · rw [if_pos h1] at hs
      simp at hs
    · rw [if_neg h1] at hs
      by_cases h2 : w.threads = []
      · rw [if_pos h2] at hs
        unfold ConcurrentProbe at hs
        rw [List.mem_filterMap] at hs
        obtain ⟨pid, hpid, hprobe⟩ := hs
        cases hprobe
        exact ⟨statusOK_unknown, hp pid hpid⟩
      · rw [if_neg h2] at hs
        unfold ConcurrentProbe at hs
        rw [List.mem_filterMap] at hs
        obtain ⟨pid, hpid, hprobe⟩ := hs
        obtain ⟨_, hpidEq, hstatus, _⟩ := probeAmpPID_some w pid s hprobe
        exact ⟨hstatus, hpidEq ▸ hp pid hpid⟩
  · intro w hp s hs
    obtain ⟨_, _, hpid, hstatus⟩ := DiscoverGemini_mem w s hs
    exact ⟨hstatus, hp s.pid hpid⟩
  · intro w hmap s hs
    obtain ⟨hpid, hst⟩ := oc w s hs
    refine ⟨?_, hpid⟩
    rcases hst with hidle | ⟨port, id, e, hmem, heq⟩
    · rw [hidle]
      exact Or.inr (Or.inl rfl)
    · rw [heq]
      exact hmap port id e hmem

/-- Witness for the amended C6: one concrete discovery per part. -/
theorem session_status_pid_invariant_witness :
    (statusOK ({ agent := "codex", status := StatusIdle,
                 sessionID := "aaaa", title := "-", directory := "/w",
                 pid := 9 } : AgentSession).status ∧
      0 < ({ agent := "codex", status := StatusIdle, sessionID := "aaaa",
             title := "-", directory := "/w",
             pid := 9 } : AgentSession).pid) ∧
    (statusOK ({ agent := "claude", status := StatusBusy,
                 sessionID := "sess1", title := "fix bug",
                 directory := "/w", pid := 4 } : AgentSession).status ∧
      0 < ({ agent := "claude", status := StatusBusy,
             sessionID := "sess1", title := "fix bug",
             directory := "/w", pid := 4 } : AgentSession).pid) ∧
    (statusOK ({ agent := "amp", status := StatusIdle,
                 sessionID := "T-1", title := "proj",
                 directory := "/work/proj",
                 pid := 7 } : AgentSession).status ∧
      0 < ({ agent := "amp", status := StatusIdle, sessionID := "T-1",
             title := "proj", directory := "/work/proj",
             pid := 7 } : AgentSession).pid) ∧
    (statusOK ({ agent := "gemini", status := StatusIdle,
                 sessionID := "sid", directory := "/g/w",
                 pid := 5 } : AgentSession).status ∧
      0 < ({ agent := "gemini", status := StatusIdle,
             sessionID := "sid", directory := "/g/w",
             pid := 5 } : AgentSession).pid) ∧
    (statusOK ({ agent := "opencode", status := "busy",
                 sessionID := "s1", pid := 5 } : AgentSession).status ∧
      0 < ({ agent := "opencode", status := "busy", sessionID := "s1",
             pid := 5 } : AgentSession).pid) := by
  refine ⟨?_, ?_, ?_, ?_, ?_⟩
  · exact session_status_pid_invariant.1
      ⟨[9], fun _ => ["/x/r-aaaa.jsonl"],
       fun f => if f = "/x/r-aaaa.jsonl" then some "aaaa" else none,
       fun _ => some [RolloutLine.record "task_complete"],
       fun _ => "/w", fun _ => none⟩
      (by intro p hp; rw [List.mem_singleton] at hp; subst hp; decide)
      _ (by decide)
  · exact session_status_pid_invariant.2.1
      ⟨[4], fun p => if p = 4 then some "sess1" else none,
       fun _ => some "/p/sess1.jsonl",
       fun _ => some [ClaudeLine.entry ⟨"assistant", "", "fix bug", "/w"⟩],
       fun _ => "/w"⟩
      (by intro p hp; rw [List.mem_singleton] at hp; subst hp; decide)
      _ (by decide)
  · exact session_status_pid_invariant.2.2.1
      ⟨[7],
       [⟨"/t/T-1.json", 5, ⟨⟨⟨[⟨"proj", "file:///work/proj"⟩]⟩⟩, []⟩⟩],
       fun _ => "/work/proj"⟩
      (by intro p hp; rw [List.mem_singleton] at hp; subst hp; decide)
      _ (by decide)
  · exact session_status_pid_invariant.2.2.2.1
      ⟨[5], fun _ => 1, fun _ => "/g/w",
       [⟨"/gem/tmp/w/chats/session-1.json", 0, "/gem/tmp/w",
         ⟨"sid", "2026", "", []⟩⟩],
       fun _ => none⟩
      (by intro p hp; rw [List.mem_singleton] at hp; subst hp; decide)
      _ (by decide)
  · exact session_status_pid_invariant.2.2.2.2.2
      ⟨some [some ⟨8080, 5, "opencode"⟩],
       fun _ => [("s1", ⟨"busy"⟩)], fun _ => none⟩
      (by
        intro port id e h
        rw [List.mem_singleton, Prod.ext_iff] at h
        obtain ⟨h1, h2⟩ := h
        dsimp only at h2
        rw [h2]
        exact Or.inl rfl)
      _ (by decide)

/-- Counterexample to claim C7: the OpenCode idle branch leaves both the
title and the directory empty, not the "-" sentinel. -/
theorem session_fields_counterexample :
    DiscoverOpenCode
        ⟨some [some ⟨8080, 5, "opencode"⟩], fun _ => [], fun _ => none⟩ =
      [{ agent := "opencode", status := StatusIdle, pid := 5 }] ∧
    ({ agent := "opencode", status := StatusIdle,
       pid := 5 } : AgentSession).title = "" ∧
    ({ agent := "opencode", status := StatusIdle,
       pid := 5 } : AgentSession).directory = "" := by
  refine ⟨by decide, rfl, rfl⟩

/-- Claim C7 (amended): the title/directory sentinels hold only on some
paths — every Claude record has a non-empty title ("-" when no slug) and
a non-empty directory whenever the platform cwd is non-empty; a Codex
record's title is "-" exactly when no DB row exists and the verbatim
(possibly empty) DB title otherwise; the OpenCode idle branch leaves
title and directory empty; every Gemini record has an empty title; an
unmatched Amp record has an empty title while a matched one carries "-"
or the first workspace tree's verbatim display name. -/
theorem session_fields_amended :
    (∀ (w : ClaudeWorld) (pid : Int) (s : AgentSession),
      probeClaudePID w pid = some s →
      s.title ≠ "" ∧ (w.cwd pid ≠ "" → s.directory ≠ "")) ∧
    (∀ (w : CodexWorld) (pid : Int) (s : AgentSession),
      probeCodexPID w pid = some s →
      (w.db s.sessionID = none → s.title = "-") ∧
      (∀ info, w.db s.sessionID = some info → s.title = info.title)) ∧
    (∀ (w : OpenCodeWorld) (inst : openCodeInstance),
      w.statusMap inst.port = [] →
      queryOpenCodeInstance w inst =
        some { agent := "opencode", status := StatusIdle,
               pid := inst.pid }) ∧
    (∀ (w : GeminiWorld) (s : AgentSession),
      s ∈ DiscoverGemini w → s.title = "") ∧
    (∀ (w : AmpWorld) (pid : Int) (s : AgentSession),
      probeAmpPID w pid = some s →
      (s.status = StatusUnknown ∧ s.title = "" ∨
       ∃ thread, matchThreadByCwd (w.cwd pid) w.threads = some thread ∧
         (thread.data.env.initial.trees = [] ∧ s.title = "-" ∨
          ∃ tr rest, thread.data.env.initial.trees = tr :: rest ∧
            s.title = tr.displayName))) := by
  refine ⟨?_, ?_, ?_, ?_, ?_⟩
  · intro w pid s h
    obtain ⟨_, _, _, htitle, hdir⟩ := probeClaudePID_some w pid s h
    exact ⟨htitle, hdir⟩
  · intro w pid s h
    obtain ⟨_, _, _, hnone, hsome⟩ := probeCodexPID_some w pid s h
    exact ⟨hnone, hsome⟩
  · intro w inst hsm
    unfold queryOpenCodeInstance
    rw [hsm]
  · intro w s hs
    exact (DiscoverGemini_mem w s hs).2.1
  · intro w pid s h
    obtain ⟨_, _, _, hdisj⟩ := probeAmpPID_some w pid s h
    rcases hdisj with hleft | ⟨thread, hm, _, htrees⟩
    · exact Or.inl hleft
    · exact Or.inr ⟨thread, hm, htrees⟩

/-- Witness for the amended C7: concrete probes exercising every part —
a Claude probe with a slug and cwd; Codex probes with and without a DB
row; the OpenCode idle branch; a Gemini record; an unmatched Amp
probe. -/
theorem session_fields_amended_witness :
    ({ agent := "claude", status := StatusBusy, sessionID := "sess1",
       title := "fix bug", directory := "/w",
       pid := 4 } : AgentSession).title ≠ "" ∧
    ({ agent := "claude", status := StatusBusy, sessionID := "sess1",
       title := "fix bug", directory := "/w",
       pid := 4 } : AgentSession).directory ≠ "" ∧
    ({ agent := "codex", status := StatusIdle, sessionID := "aaaa",
       title := "-", directory := "/w",
       pid := 9 } : AgentSession).title = "-" ∧
    ({ agent := "codex", status := StatusIdle, sessionID := "aaaa",
       title := "My title", directory := "/launch",
       pid := 9 } : AgentSession).title =
      ({ title := "My title", rolloutPath := "", cwd := "/launch" } :
        codexThreadInfo).title ∧
    queryOpenCodeInstance
        ⟨some [some ⟨8080, 5, "opencode"⟩], fun _ => [], fun _ => none⟩
        ⟨8080, 5⟩ =
      some { agent := "opencode", status := StatusIdle, pid := 5 } ∧
    ({ agent := "gemini", status := StatusIdle, sessionID := "sid",
       directory := "/g/w", pid := 5 } : AgentSession).title = "" ∧
    (({ agent := "amp", status := StatusUnknown,
        directory := "/home/elsewhere",
        pid := 7 } : AgentSession).status = StatusUnknown ∧
      ({ agent := "amp", status := StatusUnknown,
         directory := "/home/elsewhere",
         pid := 7 } : AgentSession).title = "" ∨
     ∃ thread,
       matchThreadByCwd
           (AmpWorld.cwd
             ⟨[7], [⟨"/t/T-1.json", 5,
               ⟨⟨⟨[⟨"proj", "file:///work/proj"⟩]⟩⟩, []⟩⟩],
              fun _ => "/home/elsewhere"⟩ 7)
           (AmpWorld.threads
             ⟨[7], [⟨"/t/T-1.json", 5,
               ⟨⟨⟨[⟨"proj", "file:///work/proj"⟩]⟩⟩, []⟩⟩],
              fun _ => "/home/elsewhere"⟩) = some thread ∧
         (thread.data.env.initial.trees = [] ∧
           ({ agent := "amp", status := StatusUnknown,
              directory := "/home/elsewhere",
              pid := 7 } : AgentSession).title = "-" ∨
          ∃ tr rest, thread.data.env.initial.trees = tr :: rest ∧
            ({ agent := "amp", status := StatusUnknown,
               directory := "/home/elsewhere",
               pid := 7 } : AgentSession).title = tr.displayName)) := by
  have hclaude := session_fields_amended.1
    ⟨[4], fun p => if p = 4 then some "sess1" else none,
     fun _ => some "/p/sess1.jsonl",
     fun _ => some [ClaudeLine.entry ⟨"assistant", "", "fix bug", "/w"⟩],
     fun _ => "/w"⟩
    4 ⟨"claude", StatusBusy, "sess1", "fix bug", "/w", 4⟩ (by decide)
  refine ⟨hclaude.1, hclaude.2 (by decide), ?_, ?_, ?_, ?_, ?_⟩
  · exact (session_fields_amended.2.1
      ⟨[9], fun _ => ["/x/r-aaaa.jsonl"],
       fun f => if f = "/x/r-aaaa.jsonl" then some "aaaa" else none,
       fun _ => some [RolloutLine.record "task_complete"],
       fun _ => "/w", fun _ => none⟩
      9 ⟨"codex", StatusIdle, "aaaa", "-", "/w", 9⟩ (by decide)).1 rfl
  · exact (session_fields_amended.2.1
      ⟨[9], fun _ => ["/x/r-aaaa.jsonl"],
       fun f => if f = "/x/r-aaaa.jsonl" then some "aaaa" else none,
       fun _ => some [RolloutLine.record "task_complete"],
       fun _ => "/w",
       fun _ => some ⟨"My title", "", "/launch"⟩⟩
      9 ⟨"codex", StatusIdle, "aaaa", "My title", "/launch", 9⟩
      (by decide)).2 ⟨"My title", "", "/launch"⟩ rfl
  · exact session_fields_amended.2.2.1
      ⟨some [some ⟨8080, 5, "opencode"⟩], fun _ => [], fun _ => none⟩
      ⟨8080, 5⟩ rfl
  · exact session_fields_amended.2.2.2.1
      ⟨[5], fun _ => 1, fun _ => "/g/w",
       [⟨"/gem/tmp/w/chats/session-1.json", 0, "/gem/tmp/w",
         ⟨"sid", "2026", "", []⟩⟩],
       fun _ => none⟩
      ⟨"gemini", StatusIdle, "sid", "", "/g/w", 5⟩ (by decide)
  · exact session_fields_amended.2.2.2.2
      ⟨[7], [⟨"/t/T-1.json", 5,
        ⟨⟨⟨[⟨"proj", "file:///work/proj"⟩]⟩⟩, []⟩⟩],
       fun _ => "/home/elsewhere"⟩
      7 ⟨"amp", StatusUnknown, "", "", "/home/elsewhere", 7⟩ (by decide)

end Agentstat
